import Mathlib

/-!
Verification of the redirect resolution engine of the `redirector` worker.

The definitions below are a shallow embedding of the TypeScript source:

* `src/services/redirectService.ts` — `RedirectService` (matching, pattern
  compilation, destination processing, mutations, caches);
* `src/utils/validation.ts` — `validateDestinationUrl`,
  `validateRedirectPattern`, `isHostnameAllowed`;
* `src/utils/cache.ts` — `LRUCache`;
* `src/schemas/redirect.ts` — the `Redirect` record.

Modelling conventions:

* JavaScript strings are Lean `String`s; scanners that in JS are regex
  replaces are implemented as fuel-indexed structural recursions over the
  character list (the fuel is always sufficient: every step consumes at
  least one character), so that everything reduces by `decide`.
* `Date.now()` is an explicit `now : Int` argument (milliseconds).
* JS `Map` and plain-object rule tables are insertion-ordered association
  lists (`List (String × _)`); this matches JS iteration order for the
  non-array-index string keys the engine uses.
* The WHATWG `URL` primitive is modelled by `URLModel`/`parseURL` on the
  fragment the engine exercises: absolute URLs with special schemes
  (`http`, `https`, `ws`, `wss`, `ftp` — authority required, extra or
  missing slashes after the scheme are tolerated as in WHATWG),
  `file:` URLs, and opaque-path URLs for every other scheme
  (`javascript:`, `data:`, ...). Userinfo, ports, percent-encoding and
  dot-segment normalization are outside the modelled fragment; none of the
  claims exercise them.
-/

namespace Redirector

/-- `[a-zA-Z0-9_]` — the word-character class used by `\b` and by the
`:param` name classes in the source's regexes. -/
def isWordChar (c : Char) : Bool :=
  (('a' ≤ c && c ≤ 'z') || ('A' ≤ c && c ≤ 'Z') || ('0' ≤ c && c ≤ '9') || c = '_')

def isAsciiLetter (c : Char) : Bool :=
  ('a' ≤ c && c ≤ 'z') || ('A' ≤ c && c ≤ 'Z')

def isDigitChar (c : Char) : Bool :=
  '0' ≤ c && c ≤ '9'

/-- `String.prototype.toLowerCase` (ASCII fragment). -/
def lowerStr (s : String) : String :=
  ⟨s.data.map Char.toLower⟩

/-- Substring containment (`String.prototype.includes`). -/
def containsSub (s sub : String) : Bool :=
  s.data.tails.any (fun t => sub.data.isPrefixOf t)

def containsChar (s : String) (c : Char) : Bool :=
  s.data.any (· = c)

/-- `String.prototype.startsWith`. -/
def strStartsWith (s pre : String) : Bool :=
  pre.data.isPrefixOf s.data

/-- `String.prototype.endsWith`. -/
def strEndsWith (s suf : String) : Bool :=
  suf.data.reverse.isPrefixOf s.data.reverse

/-- Split a character list at every occurrence of `sep` (fuelled; fuel
`≥ length + 1` always suffices since every step consumes a character). -/
def splitCharsF (sep : Char) : Nat → List Char → List Char → List (List Char)
  | 0, acc, _ => [acc.reverse]
  | _ + 1, acc, [] => [acc.reverse]
  | n + 1, acc, c :: cs =>
    if c = sep then acc.reverse :: splitCharsF sep n [] cs
    else splitCharsF sep n (c :: acc) cs

def splitChars (sep : Char) (s : List Char) : List (List Char) :=
  splitCharsF sep (s.length + 1) [] s

/-! ## URL model (`new URL`, WHATWG fragment) -/

/-- Model of a parsed WHATWG URL.  `hasAuthority` is true for URLs
serialized as `scheme://host...`; opaque-path URLs (`javascript:...`)
have `hasAuthority = false` and an empty `host`. `hash` includes the
leading `#` when non-empty, as `url.hash` does. -/
structure URLModel where
  scheme : String
  hasAuthority : Bool
  host : String
  path : String
  query : List (String × String)
  hash : String
deriving Repr, DecidableEq

/-- `url.protocol` — lowercased scheme plus `:`. -/
def URLModel.protocol (u : URLModel) : String := u.scheme ++ ":"

/-- `url.origin` for authority-bearing URLs. -/
def URLModel.origin (u : URLModel) : String := u.scheme ++ "://" ++ u.host

def serializeQuery (q : List (String × String)) : String :=
  match q with
  | [] => ""
  | _ => "?" ++ String.intercalate "&" (q.map (fun p => p.1 ++ "=" ++ p.2))

/-- `url.toString()` on the modelled fragment. -/
def URLModel.toStr (u : URLModel) : String :=
  u.scheme ++ ":" ++ (if u.hasAuthority then "//" ++ u.host else "")
    ++ u.path ++ serializeQuery u.query ++ u.hash

/-- Schemes the WHATWG parser treats as "special" (authority required).
`file` is special too but is handled separately (its host may be empty). -/
def specialSchemes : List String := ["http", "https", "ws", "wss", "ftp"]

/-- One `key=value` piece of a query string (`URLSearchParams` pairs). -/
def parseQueryPiece (piece : List Char) : String × String :=
  let k := piece.takeWhile (· ≠ '=')
  let rest := piece.drop k.length
  match rest with
  | '=' :: v => (⟨k⟩, ⟨v⟩)
  | _ => (⟨k⟩, "")

def parseQueryStr (s : List Char) : List (String × String) :=
  match s with
  | [] => []
  | _ => (splitChars '&' s).map parseQueryPiece

/-- Split `rest` (everything after the authority) into path, query, hash. -/
def splitPathQueryHash (rest : List Char) : String × List (String × String) × String :=
  let beforeHash := rest.takeWhile (· ≠ '#')
  let hashPart := rest.drop beforeHash.length
  let pathPart := beforeHash.takeWhile (· ≠ '?')
  let queryPart := beforeHash.drop (pathPart.length + 1)
  (⟨pathPart⟩,
   if beforeHash.length > pathPart.length then parseQueryStr queryPart else [],
   ⟨hashPart⟩)

/-- Parse an authority section (up to `/`, `\`, `?`, `#`): returns
`(host, rest)` or `none` when the host is invalid for a special scheme
(empty host, or a non-numeric port). Userinfo (`@`) resolves to the text
after the last `@`, as WHATWG does. -/
def parseAuthority (s : List Char) : Option (String × List Char) :=
  let authority := s.takeWhile (fun c => c ≠ '/' && c ≠ '\\' && c ≠ '?' && c ≠ '#')
  let rest := s.drop authority.length
  let hostPort := (splitChars '@' authority).getLastD []
  let host := hostPort.takeWhile (· ≠ ':')
  let portPart := hostPort.drop (host.length + 1)
  if hostPort.length > host.length && !portPart.all isDigitChar then none
  else if host.isEmpty then none
  else some (⟨host.map Char.toLower⟩, rest)

/-- Normalize a post-authority remainder into `(path, query, hash)`:
backslashes become slashes and an absent path becomes `/`. -/
def specialPathOf (rest : List Char) : String × List (String × String) × String :=
  let (p, q, h) := splitPathQueryHash (rest.map (fun c => if c = '\\' then '/' else c))
  (if p = "" then "/" else p, q, h)

/-- Model of `new URL(s)` for absolute strings; `none` models the
constructor throwing (so that the string is treated as relative). -/
def parseURL (s : String) : Option URLModel :=
  let cs := s.data
  match cs with
  | [] => none
  | c :: _ =>
    if !isAsciiLetter c then none
    else
      let schemeChars := cs.takeWhile (fun c =>
        isAsciiLetter c || isDigitChar c || c = '+' || c = '-' || c = '.')
      let afterScheme := cs.drop schemeChars.length
      match afterScheme with
      | ':' :: rest =>
        let scheme : String := ⟨schemeChars.map Char.toLower⟩
        if specialSchemes.contains scheme then
          -- special scheme: skip any run of slashes, then parse the authority
          let afterSlashes := rest.dropWhile (fun c => c = '/' || c = '\\')
          match parseAuthority afterSlashes with
          | none => none
          | some (host, rest') =>
            let (p, q, h) := specialPathOf rest'
            some ⟨scheme, true, host, p, q, h⟩
        else if scheme = "file" then
          match rest with
          | '/' :: '/' :: rest' =>
            let hostChars := rest'.takeWhile (fun c => c ≠ '/' && c ≠ '?' && c ≠ '#')
            let (p, q, h) := specialPathOf (rest'.drop hostChars.length)
            some ⟨scheme, true, ⟨hostChars.map Char.toLower⟩, p, q, h⟩
          | _ =>
            let (p, q, h) := splitPathQueryHash rest
            some ⟨scheme, true, "", p, q, h⟩
        else
          -- non-special scheme: opaque path
          let (p, q, h) := splitPathQueryHash rest
          some ⟨scheme, false, "", p, q, h⟩
      | _ => none

/-- Model of `new URL(dest, origin)` for a `dest` that failed to parse as
absolute: resolve against the origin `scheme://host` of the request URL. -/
def resolveRelative (dest : String) (baseScheme baseHost : String) : URLModel :=
  let (p, q, h) := splitPathQueryHash dest.data
  let path := if strStartsWith p "/" then p else "/" ++ p
  ⟨baseScheme, true, baseHost, path, q, h⟩

/-! ## Data model (`src/schemas/redirect.ts`) -/

/-- `conditions.dateRange`; `start`/`end` are epoch-millisecond timestamps
(`end` is renamed `stop`: `end` is a Lean keyword). -/
structure DateRange where
  start : Option Int := none
  stop : Option Int := none
deriving Repr, DecidableEq

structure RedirectConditions where
  hostname : Option String := none
  queryParams : Option (List (String × String)) := none
  headers : Option (List (String × String)) := none
  dateRange : Option DateRange := none
deriving Repr, DecidableEq

/-- The `Redirect` record of `RedirectSchema`. -/
structure Redirect where
  source : String
  destination : String
  statusCode : Nat := 301
  enabled : Bool := true
  description : Option String := none
  conditions : Option RedirectConditions := none
  preserveQueryParams : Bool := true
  preserveHash : Bool := true
deriving Repr, DecidableEq

/-- The inbound request as the engine sees it: a header accessor.
`Headers.get` is case-insensitive, so lookup lowercases both sides. -/
structure RequestModel where
  headers : List (String × String)
deriving Repr, DecidableEq

def RequestModel.getHeader (req : RequestModel) (key : String) : Option String :=
  (req.headers.find? (fun p => lowerStr p.1 = lowerStr key)).map (·.2)

/-- Association-list lookup, modelling `obj[key]` / `map[key]` access. -/
def assocFind {α : Type} : List (String × α) → String → Option α
  | [], _ => none
  | (k', v) :: rest, k => if k' = k then some v else assocFind rest k

/-- `obj[key] = value` on a JS object: update the existing property in
place, else append (JS preserves the original insertion position on
update). -/
def objSet {α : Type} : List (String × α) → String → α → List (String × α)
  | [], k, v => [(k, v)]
  | (k', v') :: rest, k, v =>
    if k' = k then (k, v) :: rest else (k', v') :: objSet rest k v

/-- `url.searchParams.get(key)` (first occurrence). -/
def searchParamsGet (u : URLModel) (key : String) : Option String :=
  (u.query.find? (fun p => p.1 = key)).map (·.2)

/-- `RedirectService.checkConditions` (redirectService.ts:517-565). -/
def checkConditions (r : Redirect) (url : URLModel) (req : RequestModel)
    (now : Int) : Bool :=
  if !r.enabled then false
  else
    match r.conditions with
    | none => true
    | some conds =>
      let hostnameOk :=
        match conds.hostname with
        | some h => if h ≠ "" then url.host = h else true
        | none => true
      let queryOk :=
        match conds.queryParams with
        | some qps => qps.all (fun p => searchParamsGet url p.1 = some p.2)
        | none => true
      let headersOk :=
        match conds.headers with
        | some hs => hs.all (fun p => req.getHeader p.1 = some p.2)
        | none => true
      let dateOk :=
        match conds.dateRange with
        | some dr =>
          (match dr.start with
           | some s => decide (¬ now < s)
           | none => true) &&
          (match dr.stop with
           | some e => decide (¬ e < now)
           | none => true)
        | none => true
      hostnameOk && queryOk && headersOk && dateOk

/-! ## Safety validators (`src/utils/validation.ts`) -/

structure ValidationResult where
  valid : Bool
  reason : Option String := none
deriving Repr, DecidableEq

/-- `isHostnameAllowed` (validation.ts): exact match, `*.domain` wildcard
(suffix `.domain` or the bare domain), and the implicit `www.` rule for
non-wildcard entries. -/
def isHostnameAllowed (hostname : String) (allowedDomains : List String) : Bool :=
  let normalizedHostname := lowerStr hostname
  allowedDomains.any (fun pat =>
    let normalizedPattern := lowerStr pat
    (normalizedHostname = normalizedPattern) ||
    (strStartsWith normalizedPattern "*." &&
      (let baseDomain : String := ⟨normalizedPattern.data.drop 2⟩
       strEndsWith normalizedHostname ("." ++ baseDomain) ||
       normalizedHostname = baseDomain)) ||
    (!strStartsWith normalizedPattern "*" &&
      normalizedHostname = "www." ++ normalizedPattern))

def dangerousSchemes : List String :=
  ["javascript:", "data:", "file:", "vbscript:", "about:", "blob:", "ftp:"]

/-- `validateDestinationUrl` (validation.ts:119-218).

The source parses `sourceOrigin` with `new URL` after the scheme checks;
our model extracts its hostname with `parseURL`, defaulting to `""` —
the engine only ever passes `url.origin`, which always parses. -/
def validateDestinationUrl (destination : String) (sourceOrigin : String)
    (allowedDomains : List String) (allowExternalRedirects : Bool) :
    ValidationResult :=
  match parseURL destination with
  | none =>
    -- relative URLs are always allowed
    { valid := true }
  | some destUrl =>
    let scheme := lowerStr destUrl.protocol
    if dangerousSchemes.any (fun s => strStartsWith scheme s) then
      { valid := false
        reason := some ("Destination URL uses blocked scheme: " ++ destUrl.protocol) }
    else if scheme ≠ "http:" && scheme ≠ "https:" then
      { valid := false
        reason := some "Only HTTP and HTTPS protocols are allowed" }
    else
      let sourceHostname := ((parseURL sourceOrigin).map (·.host)).getD ""
      if allowedDomains.length > 0 then
        if !isHostnameAllowed destUrl.host allowedDomains then
          { valid := false, reason := some "Destination domain not in allowed list" }
        else
          { valid := true }
      else if !allowExternalRedirects then
        if destUrl.host ≠ sourceHostname then
          { valid := false
            reason := some "External redirects are not allowed. Destination must be on the same domain." }
        else
          { valid := true }
      else
        { valid := true }

/-- The character whitelist `[a-zA-Z0-9:/*_.\-?&=#+%@!~]` of
`ALLOWED_PATTERN_REGEX`. -/
def allowedPatternChar (c : Char) : Bool :=
  isAsciiLetter c || isDigitChar c ||
  c = ':' || c = '/' || c = '*' || c = '_' || c = '.' || c = '-' ||
  c = '?' || c = '&' || c = '=' || c = '#' || c = '+' || c = '%' ||
  c = '@' || c = '!' || c = '~'

/-- Scan the inside of a parenthesized group for
`NESTED_QUANTIFIER_REGEX = /\([^)]*[*+][^)]*\)[*+]/`: after a `(`, the
group runs to the first `)`; the match requires a `*`/`+` inside and a
`*`/`+` immediately after the `)`. -/
def nestedGroupAt (sawQuant : Bool) : List Char → Bool
  | [] => false
  | ')' :: rest =>
    sawQuant && (match rest with
      | c :: _ => c = '*' || c = '+'
      | [] => false)
  | c :: rest => nestedGroupAt (sawQuant || c = '*' || c = '+') rest

/-- Whether `NESTED_QUANTIFIER_REGEX` matches anywhere in the string. -/
def hasNestedQuantifier : List Char → Bool
  | [] => false
  | '(' :: rest => nestedGroupAt false rest || hasNestedQuantifier rest
  | _ :: rest => hasNestedQuantifier rest

/-- `validateRedirectPattern` (validation.ts:228-269). -/
def validateRedirectPattern (pattern : String) : ValidationResult :=
  if pattern.length > 200 then
    { valid := false
      reason := some "Pattern exceeds maximum length of 200 characters" }
  else if !(pattern.length > 0 && pattern.data.all allowedPatternChar) then
    { valid := false
      reason := some "Pattern contains invalid characters. Only alphanumeric, :, /, *, _, -, ., and common URL characters are allowed" }
  else if hasNestedQuantifier pattern.data then
    { valid := false
      reason := some "Pattern contains nested quantifiers which could cause performance issues" }
  else if containsSub pattern "**" then
    { valid := false
      reason := some "Pattern contains consecutive wildcards which are not allowed" }
  else
    { valid := true }

/-! ## Pattern compiler (`compilePattern`, redirectService.ts:405-456)

The source builds a regex string by three sequential global replaces:
1. `:name*` → `(.*)` (recording `name` as a wildcard param);
2. `:name` → `([^/]+)` (recording `name` unless already a wildcard);
3. `*` → `(.*)` (recording `_splat<i>`).

Step 3 runs on the *output* of step 1, so the `*` inside every `(.*)`
inserted for a `:name*` token is itself rewritten, making each `:name*`
compile to `(.(.*))` — an outer group (bound to `name`) and an inner
group (bound to a `_splat<i>` name).  The embedding reproduces this.

The modelled regex fragment treats `.` as the any-character metacharacter
and all other non-token characters as literals; patterns containing other
regex metacharacters (`+?()[]{}^$|\`) are outside the modelled fragment
(the character whitelist of `validateRedirectPattern` excludes most of
them). -/

/-- Surface tokens of a pattern string. -/
inductive PTok where
  | lit (c : Char)
  | dot
  | namedStar (name : String)
  | namedSeg (name : String)
  | bareStar
deriving Repr, DecidableEq

/-- Tokenize a pattern (fuelled: every step consumes ≥ 1 character). -/
def tokenizeF : Nat → List Char → List PTok
  | 0, _ => []
  | _ + 1, [] => []
  | n + 1, ':' :: rest =>
    let name := rest.takeWhile isWordChar
    if name.isEmpty then .lit ':' :: tokenizeF n rest
    else
      match rest.drop name.length with
      | '*' :: rest' => .namedStar ⟨name⟩ :: tokenizeF n rest'
      | rest' => .namedSeg ⟨name⟩ :: tokenizeF n rest'
  | n + 1, '*' :: rest => .bareStar :: tokenizeF n rest
  | n + 1, '.' :: rest => .dot :: tokenizeF n rest
  | n + 1, c :: rest => .lit c :: tokenizeF n rest

def tokenizePattern (pattern : String) : List PTok :=
  tokenizeF (pattern.data.length + 1) pattern.data

/-- Capture-group tokens of the final regex, in textual order.
`starPlus` is the `(.(.*))` shape a `:name*` compiles to after step 3
(two capture groups: the outer `( . inner )` and the inner `(.*)`). -/
inductive GTok where
  | lit (c : Char)
  | dot
  | seg
  | star
  | starPlus
deriving Repr, DecidableEq

def PTok.toGTok : PTok → GTok
  | .lit c => .lit c
  | .dot => .dot
  | .namedSeg _ => .seg
  | .namedStar _ => .starPlus
  | .bareStar => .star

/-- Number of capture groups a token contributes. -/
def GTok.groups : GTok → Nat
  | .lit _ => 0
  | .dot => 0
  | .seg => 1
  | .star => 1
  | .starPlus => 2

/-- The intermediate string after replace-steps 1 and 2 (used only to
compute the `starWildcards` offsets the source records). -/
def ptokS2 : PTok → List Char
  | .lit c => [c]
  | .dot => ['.']
  | .namedStar _ => "(.*)".data
  | .namedSeg _ => "([^/]+)".data
  | .bareStar => ['*']

/-- Offsets of `*` characters in a character list. -/
def starOffsets (s : List Char) : List Nat :=
  (s.enum.filter (fun p => p.2 = '*')).map (·.1)

structure CompiledPattern where
  toks : List GTok
  paramNames : List String
  wildcardParams : List String
  starWildcards : List Nat
deriving Repr, DecidableEq

/-- `compilePattern`, minus the memoization cache (the cache is only ever
filled by this same deterministic computation, so it is transparent). -/
def compilePattern (pattern : String) : CompiledPattern :=
  let ptoks := tokenizePattern pattern
  let wildcardParams := ptoks.filterMap (fun t =>
    match t with | .namedStar n => some n | _ => none)
  let segNames := ptoks.filterMap (fun t =>
    match t with | .namedSeg n => some n | _ => none)
  let s2 := (ptoks.map ptokS2).flatten
  let splatCount := (s2.filter (· = '*')).length
  let paramNames :=
    wildcardParams ++
    segNames.filter (fun n => !wildcardParams.contains n) ++
    (List.range splatCount).map (fun i => "_splat" ++ toString i)
  { toks := ptoks.map PTok.toGTok
    paramNames := paramNames
    wildcardParams := wildcardParams
    starWildcards := starOffsets s2 }

/-! ### Regex matching

`matchToks` models JS regex matching of the anchored compiled pattern:
greedy quantifiers with depth-first backtracking (longest candidate
first).  It is realized as a single fuel-indexed structural recursion so
that it reduces inside `decide`; the fuel bounds the depth of the
backtracking search, and `matchFuel` always exceeds it. -/

/-- All `(captured, rest)` splits of `s`, longest capture first. -/
def splitsDesc (s : List Char) : List (List Char × List Char) :=
  ((List.range (s.length + 1)).map (fun k => (s.take k, s.drop k))).reverse

/-- Candidates for one capture-group token, longest first, paired with the
capture list the group contributes. -/
def gtokCandidates : GTok → List Char → List (List (List Char) × List Char)
  | .seg, s =>
    -- ([^/]+): non-empty, no '/', greedy
    ((splitsDesc s).filter (fun p => !p.1.isEmpty && p.1.all (· ≠ '/'))).map
      (fun p => ([p.1], p.2))
  | .star, s =>
    -- (.*): anything, greedy
    (splitsDesc s).map (fun p => ([p.1], p.2))
  | .starPlus, s =>
    -- (.(.*)): at least one char; outer capture then inner capture
    ((splitsDesc s).filter (fun p => !p.1.isEmpty)).map
      (fun p => ([p.1, p.1.drop 1], p.2))
  | _, _ => []

/-- Depth-first matcher state: either matching a token list against a
string, or trying the candidate list of a group token. -/
def mtf : Nat → (List GTok × List Char) ⊕ (List GTok × List (List (List Char) × List Char)) →
    Option (List (List Char))
  | 0, _ => none
  | _ + 1, .inl ([], s) => if s.isEmpty then some [] else none
  | n + 1, .inl (.lit c :: ts, s) =>
    match s with
    | [] => none
    | d :: ds => if d = c then mtf n (.inl (ts, ds)) else none
  | n + 1, .inl (.dot :: ts, s) =>
    match s with
    | [] => none
    | _ :: ds => mtf n (.inl (ts, ds))
  | n + 1, .inl (t :: ts, s) => mtf n (.inr (ts, gtokCandidates t s))
  | _ + 1, .inr (_, []) => none
  | n + 1, .inr (ts, (caps, rest) :: more) =>
    match mtf n (.inl (ts, rest)) with
    | some cs => some (caps ++ cs)
    | none => mtf n (.inr (ts, more))

/-- Fuel that always dominates the backtracking depth: along any branch
each token costs at most `1 + (|s| + 2)` steps. -/
def matchFuel (toks : List GTok) (s : List Char) : Nat :=
  (toks.length + 1) * (s.length + 3)

/-- Run the anchored compiled regex; `some captures` on a match, with one
entry per capture group in textual order. -/
def matchToks (toks : List GTok) (s : List Char) : Option (List (List Char)) :=
  mtf (matchFuel toks s) (.inl (toks, s))

/-- `matchPattern` (redirectService.ts:461-486): run the compiled regex
and bind `paramNames[i]` to capture `i+1` (`''` when absent), mirroring
every `_splat…` binding into the `splat` alias. -/
def matchPattern (path : String) (pattern : String) :
    Option (List (String × String)) :=
  let compiled := compilePattern pattern
  match matchToks compiled.toks path.data with
  | none => none
  | some captures =>
    some ((compiled.paramNames.enum).foldl (fun params p =>
      let name := p.2
      let value : String := ⟨captures.getD p.1 []⟩
      let params' := objSet params name value
      if strStartsWith name "_splat" then objSet params' "splat" value
      else params') [])

/-! ## Matching engine (`matchRedirect`, redirectService.ts:69-144) -/

structure RedirectResult where
  matched : Bool
  redirect : Option Redirect := none
  params : Option (List (String × String)) := none
deriving Repr, DecidableEq

/-- Pattern-phase target selection for one rule source
(redirectService.ts:116-129): absolute-URL patterns match the full URL,
`/`-patterns the path, anything else host+path with a path fallback. -/
def patternParams (pattern path fullUrl hostAndPath : String) :
    Option (List (String × String)) :=
  if strStartsWith pattern "http" then matchPattern fullUrl pattern
  else if strStartsWith pattern "/" then matchPattern path pattern
  else
    match matchPattern hostAndPath pattern with
    | some ps => some ps
    | none => matchPattern path pattern

/-- The `for (const [pattern, redirect] of Object.entries(redirectMap))`
loop (redirectService.ts:110-140). -/
def patternLoop (url : URLModel) (req : RequestModel) (now : Int)
    (path fullUrl hostAndPath : String) :
    List (String × Redirect) → RedirectResult
  | [] => { matched := false }
  | (pattern, r) :: rest =>
    if !r.enabled then patternLoop url req now path fullUrl hostAndPath rest
    else
      match patternParams pattern path fullUrl hostAndPath with
      | some ps =>
        if checkConditions r url req now then
          { matched := true, redirect := some r, params := some ps }
        else patternLoop url req now path fullUrl hostAndPath rest
      | none => patternLoop url req now path fullUrl hostAndPath rest

/-- One exact-key early-return block (`if (redirectMap[key]) { ... }`). -/
def tryExact (m : List (String × Redirect)) (key : String) (url : URLModel)
    (req : RequestModel) (now : Int) (next : RedirectResult) : RedirectResult :=
  match assocFind m key with
  | some r =>
    if checkConditions r url req now then
      { matched := true, redirect := some r, params := none }
    else next
  | none => next

/-- The matching core of `matchRedirect` (the body after the rule table
has been obtained): three lowercased exact-key lookups, then the pattern
loop in insertion order. -/
def matchAgainstMap (m : List (String × Redirect)) (url : URLModel)
    (req : RequestModel) (now : Int) : RedirectResult :=
  let path := lowerStr url.path
  let fullUrl := lowerStr url.toStr
  let hostAndPath := lowerStr (url.host ++ path)
  tryExact m path url req now
    (tryExact m fullUrl url req now
      (tryExact m hostAndPath url req now
        (patternLoop url req now path fullUrl hostAndPath m)))

/-- The matching strategy as the specification words it: try the three
candidate keys in order and return the first present hit whose conditions
pass; only if none passes, scan the table in insertion order for the
first enabled rule that pattern-matches and passes its conditions. -/
def matchRedirectSpec (m : List (String × Redirect)) (url : URLModel)
    (req : RequestModel) (now : Int) : RedirectResult :=
  let path := lowerStr url.path
  let fullUrl := lowerStr url.toStr
  let hostAndPath := lowerStr (url.host ++ path)
  match [path, fullUrl, hostAndPath].findSome? (fun key =>
    match assocFind m key with
    | some r => if checkConditions r url req now then some r else none
    | none => none) with
  | some r => { matched := true, redirect := some r, params := none }
  | none =>
    match m.find? (fun pr =>
        pr.2.enabled &&
        (patternParams pr.1 path fullUrl hostAndPath).isSome &&
        checkConditions pr.2 url req now) with
    | some (pattern, r) =>
      { matched := true, redirect := some r
        params := patternParams pattern path fullUrl hostAndPath }
    | none => { matched := false }

/-! ## Destination processor (`processRedirect`, redirectService.ts:149-261) -/

/-- The outgoing decision: `Response` reduced to the fields the engine
sets (404 / 403 / a redirect with `Location`, status and the two
cache-control headers' shared `max-age`). -/
inductive ProcResponse where
  | notFound
  | forbidden
  | redirect (location : String) (status : Nat) (cacheTTL : Nat)
deriving Repr, DecidableEq

/-- `getCacheTTLForStatusCode` (redirectService.ts:266-278). -/
def getCacheTTLForStatusCode (statusCode : Nat) : Nat :=
  if statusCode = 301 || statusCode = 308 then 31536000 else 3600

/-- Replace every occurrence of the literal `target` (left-to-right,
non-overlapping), as `String.replace(regex-with-g)` on a literal. -/
def replaceAllLitF (target repl : List Char) : Nat → List Char → List Char
  | 0, s => s
  | _ + 1, [] => []
  | n + 1, c :: cs =>
    if target.isPrefixOf (c :: cs) then
      repl ++ replaceAllLitF target repl n ((c :: cs).drop target.length)
    else c :: replaceAllLitF target repl n cs

def replaceAllLit (s target repl : String) : String :=
  if target.data.isEmpty then s
  else ⟨replaceAllLitF target.data repl.data (s.data.length + 1) s.data⟩

/-- `destination.replace(new RegExp(`:key\b`, 'g'), value)`: replace
every `:key` whose next character is not a word character (the previous
character is unconstrained — the regex starts at the literal `:`). -/
def replaceParamWBF (key repl : List Char) : Nat → List Char → List Char
  | 0, s => s
  | _ + 1, [] => []
  | n + 1, ':' :: cs =>
    if key.isPrefixOf cs &&
       (match cs.drop key.length with
        | c :: _ => !isWordChar c
        | [] => true) then
      repl ++ replaceParamWBF key repl n (cs.drop key.length)
    else ':' :: replaceParamWBF key repl n cs
  | n + 1, c :: cs => c :: replaceParamWBF key repl n cs

def replaceParamWB (s key repl : String) : String :=
  ⟨replaceParamWBF key.data repl.data (s.data.length + 1) s.data⟩

/-- `destination.replace('*', value)` — first occurrence only. -/
def replaceFirstStar (s repl : String) : String :=
  let pre := s.data.takeWhile (· ≠ '*')
  if pre.length = s.data.length then s
  else ⟨pre ++ repl.data ++ s.data.drop (pre.length + 1)⟩

/-- `destination.replace(/:[a-zA-Z0-9_]+(\*)?/g, '')` — strip leftover
placeholder tokens. -/
def stripLeftoverF : Nat → List Char → List Char
  | 0, s => s
  | _ + 1, [] => []
  | n + 1, ':' :: cs =>
    let name := cs.takeWhile isWordChar
    if name.isEmpty then ':' :: stripLeftoverF n cs
    else
      match cs.drop name.length with
      | '*' :: rest => stripLeftoverF n rest
      | rest => stripLeftoverF n rest
  | n + 1, c :: cs => c :: stripLeftoverF n cs

def stripLeftover (s : String) : String :=
  ⟨stripLeftoverF (s.data.length + 1) s.data⟩

/-- `destination.replace(/\/+/g, '/')` — collapse slash runs. -/
def collapseSlashesF : Nat → List Char → List Char
  | 0, s => s
  | _ + 1, [] => []
  | n + 1, '/' :: cs => '/' :: collapseSlashesF n (cs.dropWhile (· = '/'))
  | n + 1, c :: cs => c :: collapseSlashesF n cs

def collapseSlashes (s : String) : String :=
  ⟨collapseSlashesF (s.data.length + 1) s.data⟩

/-- The parameter-substitution loop (redirectService.ts:184-199), over
`Object.entries(params)` in insertion order. -/
def substituteParams (dest : String) : List (String × String) → String
  | [] => dest
  | (key, value) :: rest =>
    let namedWildcard := ":" ++ key ++ "*"
    if containsSub dest namedWildcard then
      substituteParams (replaceAllLit dest namedWildcard value) rest
    else
      let d1 := replaceParamWB dest key value
      let d2 :=
        if strStartsWith key "_splat" && containsChar d1 '*' then
          replaceFirstStar d1 value
        else d1
      substituteParams d2 rest

/-- `params['splat'] || params['_splat0'] || ''` — JS `||` treats the
empty string as falsy. -/
def splatFallback (params : List (String × String)) : String :=
  match assocFind params "splat" with
  | some s =>
    if s ≠ "" then s
    else
      match assocFind params "_splat0" with
      | some t => if t ≠ "" then t else ""
      | none => ""
  | none =>
    match assocFind params "_splat0" with
    | some t => if t ≠ "" then t else ""
    | none => ""

/-- `searchParams.has` / the guarded `searchParams.set` used when merging
preserved query parameters (the `set` only runs when the key is absent,
so it appends). -/
def mergeQueryParam (u : URLModel) (key value : String) : URLModel :=
  if (u.query.find? (fun p => p.1 = key)).isSome then u
  else { u with query := u.query ++ [(key, value)] }

/-- `processRedirect` (redirectService.ts:149-261).  `allowedDomains` and
`allowExternalRedirects` are the service's constructor-derived fields. -/
def processRedirect (res : RedirectResult) (url : URLModel)
    (allowedDomains : List String) (allowExternalRedirects : Bool) :
    ProcResponse :=
  match res.redirect, res.matched with
  | some r, true =>
    let params := res.params.getD []
    let validation :=
      validateDestinationUrl r.destination url.origin allowedDomains
        allowExternalRedirects
    if !validation.valid then .forbidden
    else
      let hasSplatPattern := containsChar r.destination '*'
      let hasStarSplat :=
        (assocFind params "_splat0").isSome || (assocFind params "splat").isSome
      let d1 := substituteParams r.destination params
      let d2 :=
        if hasStarSplat && !hasSplatPattern && strEndsWith d1 "/" then
          d1 ++ splatFallback params
        else d1
      let d3 := collapseSlashes (stripLeftover d2)
      let destUrl :=
        match parseURL d3 with
        | some u => u
        | none => resolveRelative d3 url.scheme url.host
      let destUrl :=
        if r.preserveQueryParams then
          url.query.foldl (fun du p => mergeQueryParam du p.1 p.2) destUrl
        else destUrl
      let destUrl :=
        if r.preserveHash && url.hash ≠ "" then { destUrl with hash := url.hash }
        else destUrl
      .redirect destUrl.toStr r.statusCode (getCacheTTLForStatusCode r.statusCode)
  | _, _ => .notFound

/-! ## LRU cache (`src/utils/cache.ts`) -/

structure CacheEntry (α : Type) where
  value : α
  expiresAt : Int
deriving Repr, DecidableEq

/-- `LRUCache`: the JS `Map` is an insertion-ordered association list;
the class re-inserts entries to move them to the most-recent end. -/
structure LRUCache (α : Type) where
  entries : List (String × CacheEntry α)
  maxSize : Nat
  ttlMs : Int
  hits : Nat
  misses : Nat
deriving Repr, DecidableEq

/-- The constructor `new LRUCache(maxSize, ttlSeconds)`. -/
def LRUCache.empty (α : Type) (maxSize : Nat) (ttlSeconds : Int) : LRUCache α :=
  ⟨[], maxSize, ttlSeconds * 1000, 0, 0⟩

/-- `Map.prototype.delete` (all entries with the key; keys are unique by
construction). -/
def mapDelete {α : Type} (l : List (String × α)) (key : String) :
    List (String × α) :=
  l.filter (fun p => p.1 ≠ key)

/-- `Map.prototype.get` (pure part). -/
def mapGet {α : Type} (l : List (String × α)) (key : String) : Option α :=
  assocFind l key

/-- `LRUCache.get` (cache.ts:42-66): miss counters, lazy expiry, and the
delete/re-insert recency refresh. -/
def LRUCache.get {α : Type} (c : LRUCache α) (key : String) (now : Int) :
    Option α × LRUCache α :=
  match mapGet c.entries key with
  | none => (none, { c with misses := c.misses + 1 })
  | some entry =>
    if now > entry.expiresAt then
      (none, { c with entries := mapDelete c.entries key, misses := c.misses + 1 })
    else
      (some entry.value,
       { c with entries := mapDelete c.entries key ++ [(key, entry)]
                hits := c.hits + 1 })

/-- `LRUCache.set` (cache.ts:72-93): delete an existing entry, evict the
first (least-recently-used) entry when at capacity, then append. -/
def LRUCache.set {α : Type} (c : LRUCache α) (key : String) (value : α)
    (now : Int) : LRUCache α :=
  let expiresAt := now + c.ttlMs
  let entries :=
    if (mapGet c.entries key).isSome then mapDelete c.entries key
    else c.entries
  let entries :=
    if entries.length ≥ c.maxSize then
      match entries.head? with
      | some first => mapDelete entries first.1
      | none => entries
    else entries
  { c with entries := entries ++ [(key, ⟨value, expiresAt⟩)] }

/-- `LRUCache.has` (cache.ts:98-111) — deletes a present-but-expired
entry, so it returns the updated cache too. -/
def LRUCache.has {α : Type} (c : LRUCache α) (key : String) (now : Int) :
    Bool × LRUCache α :=
  match mapGet c.entries key with
  | none => (false, c)
  | some entry =>
    if now > entry.expiresAt then
      (false, { c with entries := mapDelete c.entries key })
    else (true, c)

/-- `LRUCache.delete` (cache.ts:116-122). -/
def LRUCache.delete {α : Type} (c : LRUCache α) (key : String) :
    Bool × LRUCache α :=
  ((mapGet c.entries key).isSome, { c with entries := mapDelete c.entries key })

/-- `LRUCache.clear` (cache.ts:127-133) — also resets the counters. -/
def LRUCache.clear {α : Type} (c : LRUCache α) : LRUCache α :=
  { c with entries := [], hits := 0, misses := 0 }

/-- `LRUCache.prune` (cache.ts:163-179). -/
def LRUCache.prune {α : Type} (c : LRUCache α) (now : Int) :
    Nat × LRUCache α :=
  let kept := c.entries.filter (fun p => !(now > p.2.expiresAt))
  (c.entries.length - kept.length, { c with entries := kept })

structure CacheStats where
  size : Nat
  maxSize : Nat
  ttlMs : Int
  hits : Nat
  misses : Nat
deriving Repr, DecidableEq

/-- `LRUCache.getStats` (cache.ts:138-157); the floating-point `hitRate`
is omitted from the model. -/
def LRUCache.getStats {α : Type} (c : LRUCache α) : CacheStats :=
  ⟨c.entries.length, c.maxSize, c.ttlMs, c.hits, c.misses⟩

/-- One cache operation of the public interface, with its explicit
`Date.now()` where the source reads the clock. -/
inductive CacheOp (α : Type) where
  | setOp (key : String) (value : α) (now : Int)
  | getOp (key : String) (now : Int)
  | hasOp (key : String) (now : Int)
  | delOp (key : String)
  | clearOp
  | pruneOp (now : Int)
deriving Repr

def applyCacheOp {α : Type} (c : LRUCache α) : CacheOp α → LRUCache α
  | .setOp k v now => c.set k v now
  | .getOp k now => (c.get k now).2
  | .hasOp k now => (c.has k now).2
  | .delOp k => (c.delete k).2
  | .clearOp => c.clear
  | .pruneOp now => (c.prune now).2

def runCacheOps {α : Type} (c : LRUCache α) (ops : List (CacheOp α)) :
    LRUCache α :=
  ops.foldl applyCacheOp c

/-! ## Service state and mutations (`RedirectService`) -/

/-- The rule table: source string → rule, insertion-ordered. -/
abbrev RuleMap := List (String × Redirect)

/-- The mutable state a `RedirectService` instance owns: the durable KV
content (already decoded — the engine's JSON/schema decode of its own
serialization always succeeds), the bounded rule-table cache, and the
compiled-pattern cache. -/
structure RSState where
  store : Option RuleMap
  cache : LRUCache RuleMap
  patternCache : List (String × CompiledPattern)
deriving Repr

def REDIRECT_MAP_CACHE_KEY : String := "redirect_map"

/-- A freshly constructed service (constructor defaults
`cacheTtlSeconds = 60`, `cacheMaxSize = 1000`) over the given KV
content. -/
def RSState.init (store : Option RuleMap) : RSState :=
  ⟨store, LRUCache.empty RuleMap 1000 60, []⟩

/-- `getRedirectMap` (redirectService.ts:370-400): consult the cache,
else read and decode the durable store and populate the cache. -/
def getRedirectMap (st : RSState) (now : Int) : Option RuleMap × RSState :=
  match st.cache.get REDIRECT_MAP_CACHE_KEY now with
  | (some cached, cache') => (some cached, { st with cache := cache' })
  | (none, cache') =>
    match st.store with
    | none => (none, { st with cache := cache' })
    | some m =>
      (some m, { st with cache := cache'.set REDIRECT_MAP_CACHE_KEY m now })

/-- `clearPatternCache` (redirectService.ts:508-512). -/
def clearPatternCacheRS (st : RSState) : RSState :=
  { st with patternCache := [] }

/-- `getCacheStats` (redirectService.ts:491-496). -/
structure ServiceCacheStats where
  redirectCache : CacheStats
  patternCacheSize : Nat
deriving Repr, DecidableEq

def getCacheStatsRS (st : RSState) : ServiceCacheStats :=
  ⟨st.cache.getStats, st.patternCache.length⟩

/-- `saveRedirect` (redirectService.ts:283-305): validate the source
pattern, then read-modify-write the whole table and invalidate both
caches.  The error component models the synchronous `throw`. -/
def saveRedirect (st : RSState) (r : Redirect) (now : Int) :
    Except String Unit × RSState :=
  let patternValidation := validateRedirectPattern r.source
  if !patternValidation.valid then
    (.error (patternValidation.reason.getD "Invalid redirect pattern"), st)
  else
    let (m, st1) := getRedirectMap st now
    let redirectMap := objSet (m.getD []) r.source r
    let st2 := { st1 with store := some redirectMap }
    let st3 := clearPatternCacheRS
      { st2 with cache := (st2.cache.delete REDIRECT_MAP_CACHE_KEY).2 }
    (.ok (), st3)

/-- `saveBulkRedirects` (redirectService.ts:310-345): read the table,
validate every source pattern, reject the whole batch on any failure
(before any write), else merge all rules and write once. -/
def saveBulkRedirects (st : RSState) (redirects : List Redirect) (now : Int) :
    Except String Unit × RSState :=
  let (m, st1) := getRedirectMap st now
  let invalidRedirects := (redirects.filter
    (fun r => !(validateRedirectPattern r.source).valid)).map
    (fun r => (r.source, (validateRedirectPattern r.source).reason.getD "Invalid pattern"))
  if !invalidRedirects.isEmpty then
    (.error ("Invalid redirect patterns found: " ++
      String.intercalate ", " (invalidRedirects.map
        (fun p => p.1 ++ " (" ++ p.2 ++ ")"))), st1)
  else
    let redirectMap := redirects.foldl (fun acc r => objSet acc r.source r)
      (m.getD [])
    let st2 := { st1 with store := some redirectMap }
    let st3 := clearPatternCacheRS
      { st2 with cache := (st2.cache.delete REDIRECT_MAP_CACHE_KEY).2 }
    (.ok (), st3)

/-- `deleteRedirect` (redirectService.ts:350-365): `false` when the rule
is absent (no write, no invalidation); otherwise remove, write and
invalidate. -/
def deleteRedirect (st : RSState) (source : String) (now : Int) :
    Bool × RSState :=
  let (m?, st1) := getRedirectMap st now
  match m? with
  | none => (false, st1)
  | some m =>
    if (assocFind m source).isNone then (false, st1)
    else
      let st2 := { st1 with store := some (mapDelete m source) }
      let st3 := clearPatternCacheRS
        { st2 with cache := (st2.cache.delete REDIRECT_MAP_CACHE_KEY).2 }
      (true, st3)

/-! ## Concrete fixtures used by the claim theorems -/

def emptyReq : RequestModel := ⟨[]⟩

/-- A stored rule whose destination template is relative (so it passes
the pre-substitution validation) but whose substituted form is a
`javascript:` URL. -/
def cexC1Rule : Redirect := { source := "/go/:s", destination := ":s//x" }

def cexC1Url : URLModel := ⟨"https", true, "example.com", "/go/javascript:", [], ""⟩

def cexC1Params : List (String × String) := [("s", "javascript:")]

def c2BadRule : Redirect := { source := "/ok", destination := "javascript:alert(1)" }

def c3UpperRule : Redirect := { source := "/OldPath", destination := "/new" }

def c3LowerRule : Redirect := { source := "/oldpath", destination := "/new" }

def c3LowerUrl : URLModel := ⟨"https", true, "example.com", "/oldpath", [], ""⟩

def c3MixedUrl : URLModel := ⟨"https", true, "example.com", "/OldPath", [], ""⟩

def c8Rule : Redirect := { source := "/docs/*", destination := "/documentation/*" }

def c8Url : URLModel := ⟨"https", true, "example.com", "/docs/a/b/c", [], ""⟩

def c8Params : List (String × String) := [("_splat0", "a/b/c"), ("splat", "a/b/c")]

def exceptIsOk : Except String Unit → Bool
  | .ok _ => true
  | .error _ => false

/-! ## Helper lemmas -/

theorem assocFind_objSet_self {α : Type} (m : List (String × α)) (k : String)
    (v : α) : assocFind (objSet m k v) k = some v := by
  induction m with
  | nil => simp [objSet, assocFind]
  | cons p rest ih =>
    by_cases h : p.1 = k
    · simp [objSet, assocFind, h]
    · simp [objSet, assocFind, h, ih]

theorem assocFind_objSet_ne {α : Type} (m : List (String × α)) (k k' : String)
    (v : α) (h : k' ≠ k) : assocFind (objSet m k v) k' = assocFind m k' := by
  induction m with
  | nil => simp [objSet, assocFind, Ne.symm h]
  | cons p rest ih =>
    by_cases hp : p.1 = k
    · subst hp
      simp [objSet, assocFind, Ne.symm h]
    · simp only [objSet, if_neg hp]
      by_cases hq : p.1 = k'
      · simp [assocFind, hq]
      · simp [assocFind, hq, ih]

theorem assocFind_mapDelete_self {α : Type} (l : List (String × α))
    (k : String) : assocFind (mapDelete l k) k = none := by
  induction l with
  | nil => rfl
  | cons p rest ih =>
    by_cases h : p.1 = k
    · simpa [mapDelete, h] using ih
    · simpa [mapDelete, assocFind, h] using ih

theorem mapDelete_length_le {α : Type} (l : List (String × α)) (k : String) :
    (mapDelete l k).length ≤ l.length :=
  List.length_filter_le _ l

theorem mapDelete_length_lt {α : Type} (l : List (String × α)) (k : String)
    (h : (assocFind l k).isSome = true) :
    (mapDelete l k).length < l.length := by
  induction l with
  | nil => simp [assocFind] at h
  | cons p rest ih =>
    by_cases hp : p.1 = k
    · have hle : (mapDelete rest k).length ≤ rest.length :=
        mapDelete_length_le rest k
      simp only [mapDelete, ne_eq, decide_not] at hle
      simp [mapDelete, List.filter_cons, hp]
      omega
    · have h' : (assocFind rest k).isSome = true := by
        simpa [assocFind, hp] using h
      have hlt := ih h'
      simp only [mapDelete, ne_eq, decide_not] at hlt
      simp [mapDelete, List.filter_cons, hp]
      omega

/-- After folding a batch of rules into a map, a lookup either sees the
original map or some batch rule with the looked-up source. -/
theorem foldl_objSet_find_or (rs : List Redirect) :
    ∀ (m : RuleMap) (k : String),
      assocFind (rs.foldl (fun acc r => objSet acc r.source r) m) k
          = assocFind m k ∨
      ∃ r' ∈ rs, r'.source = k ∧
        assocFind (rs.foldl (fun acc r => objSet acc r.source r) m) k
          = some r' := by
  induction rs with
  | nil => intro m k; left; rfl
  | cons r1 rest ih =>
    intro m k
    have step : (r1 :: rest).foldl (fun acc r => objSet acc r.source r) m
        = rest.foldl (fun acc r => objSet acc r.source r)
            (objSet m r1.source r1) := rfl
    rw [step]
    rcases ih (objSet m r1.source r1) k with hsame | ⟨r', hmem, hsrc, hfind⟩
    · by_cases hk : k = r1.source
      · subst hk
        right
        exact ⟨r1, List.mem_cons_self _ _, rfl,
          by rw [hsame, assocFind_objSet_self]⟩
      · left
        rw [hsame, assocFind_objSet_ne _ _ _ _ hk]
    · right
      exact ⟨r', List.mem_cons_of_mem _ hmem, hsrc, hfind⟩

/-- Every rule of a folded batch is represented in the resulting map by
some batch rule with the same source. -/
theorem foldl_objSet_mem (rs : List Redirect) :
    ∀ (m : RuleMap) (r : Redirect), r ∈ rs →
      ∃ r' ∈ rs, r'.source = r.source ∧
        assocFind (rs.foldl (fun acc r => objSet acc r.source r) m) r.source
          = some r' := by
  induction rs with
  | nil => intro m r h; cases h
  | cons r1 rest ih =>
    intro m r hr
    have step : (r1 :: rest).foldl (fun acc r => objSet acc r.source r) m
        = rest.foldl (fun acc r => objSet acc r.source r)
            (objSet m r1.source r1) := rfl
    rcases List.mem_cons.mp hr with heq | hmem
    · subst heq
      rw [step]
      rcases foldl_objSet_find_or rest (objSet m r.source r) r.source with
        hsame | ⟨r', hmem', hsrc, hfind⟩
      · exact ⟨r, List.mem_cons_self _ _, rfl,
          by rw [hsame, assocFind_objSet_self]⟩
      · exact ⟨r', List.mem_cons_of_mem _ hmem', hsrc, hfind⟩
    · rcases ih (objSet m r1.source r1) r hmem with ⟨r', hmem', hsrc, hfind⟩
      exact ⟨r', List.mem_cons_of_mem _ hmem', hsrc, by rw [step]; exact hfind⟩

/-- `getRedirectMap` never writes to the durable store. -/
theorem getRedirectMap_store (st : RSState) (now : Int) :
    ((getRedirectMap st now).2).store = st.store := by
  unfold getRedirectMap
  rcases h : st.cache.get REDIRECT_MAP_CACHE_KEY now with ⟨val, cache'⟩
  cases val with
  | some m => simp
  | none => cases st.store <;> simp

/-! ## Claim theorems -/

/-- C1: `processRedirect` validates only the raw destination template and
never re-runs `validateDestinationUrl` on the fully-substituted
destination.  At the failing input — stored rule `/go/:s → :s//x`
(its source passes `validateRedirectPattern`, its raw destination parses
as relative and so passes validation), request
`https://example.com/go/javascript:` — matching captures
`s = "javascript:"`, substitution plus slash-collapsing produces
`javascript:/x`, which fails `validateDestinationUrl` for this origin
with no whitelist and external redirects disabled, yet `processRedirect`
returns a 301 redirect to it instead of the 403 the claim requires. -/
theorem c1_no_revalidation_of_substituted_destination :
    (validateRedirectPattern cexC1Rule.source).valid = true ∧
    (validateDestinationUrl cexC1Rule.destination cexC1Url.origin [] false).valid
      = true ∧
    matchAgainstMap [(cexC1Rule.source, cexC1Rule)] cexC1Url emptyReq 0
      = { matched := true, redirect := some cexC1Rule
          params := some cexC1Params } ∧
    (validateDestinationUrl "javascript:/x" cexC1Url.origin [] false).valid
      = false ∧
    processRedirect
      { matched := true, redirect := some cexC1Rule, params := some cexC1Params }
      cexC1Url [] false
      = .redirect "javascript:/x" 301 31536000 := by
  decide

/-- C2 counterexample: `saveRedirect` accepts (and stores) a rule whose
destination `javascript:alert(1)` fails `validateDestinationUrl` — no
destination validation happens at write time, refuting the claim that a
write is rejected unless the destination passes `validateDestination`. -/
theorem c2_counterexample :
    (saveRedirect (RSState.init none) c2BadRule 0).1 = .ok () ∧
    assocFind ((saveRedirect (RSState.init none) c2BadRule 0).2.store.getD [])
        "/ok" = some c2BadRule ∧
    (validateDestinationUrl c2BadRule.destination "https://example.com" [] false).valid
      = false := by
  refine ⟨rfl, ?_, by decide⟩
  decide

/-- C2 (amended): at write time only the source pattern is validated —
`saveRedirect` rejects a rule, leaving the state unchanged, exactly when
`validateRedirectPattern` fails on its source, and otherwise stores the
rule; the destination is not consulted. -/
theorem c2_write_time_validation :
    (∀ (st : RSState) (r : Redirect) (now : Int),
      (validateRedirectPattern r.source).valid = false →
        saveRedirect st r now
          = (.error ((validateRedirectPattern r.source).reason.getD
              "Invalid redirect pattern"), st)) ∧
    (∀ (st : RSState) (r : Redirect) (now : Int),
      (validateRedirectPattern r.source).valid = true →
        (saveRedirect st r now).1 = .ok () ∧
        assocFind ((saveRedirect st r now).2.store.getD []) r.source
          = some r) := by
  constructor
  · intro st r now h
    simp [saveRedirect, h]
  · intro st r now h
    rcases hg : getRedirectMap st now with ⟨m, st1⟩
    simp [saveRedirect, h, hg, clearPatternCacheRS, assocFind_objSet_self]

/-- Witness for the amended C2: the bad-source rule `/(a` is rejected
with the state unchanged, and the well-formed rule `/ok` is stored. -/
theorem c2_write_time_validation_witness :
    ((validateRedirectPattern "/(a").valid = false ∧
      saveRedirect (RSState.init none) { source := "/(a", destination := "/d" } 0
        = (.error ((validateRedirectPattern "/(a").reason.getD
            "Invalid redirect pattern"), RSState.init none)) ∧
    ((validateRedirectPattern c2BadRule.source).valid = true ∧
      (saveRedirect (RSState.init none) c2BadRule 0).1 = .ok () ∧
      assocFind ((saveRedirect (RSState.init none) c2BadRule 0).2.store.getD [])
          c2BadRule.source = some c2BadRule) :=
  ⟨⟨by decide,
    c2_write_time_validation.1 (RSState.init none)
      { source := "/(a", destination := "/d" } 0 (by decide)⟩,
   ⟨by decide,
    c2_write_time_validation.2 (RSState.init none) c2BadRule 0 (by decide)⟩⟩

/-- C3 counterexample: whether a rule is selected does depend on the
letter case of its stored source.  The claim's own example fails: a rule
stored under source `/OldPath` does not match a request with path
`/oldpath`, while the identical rule stored under `/oldpath` does. -/
theorem c3_counterexample :
    (matchAgainstMap [(c3UpperRule.source, c3UpperRule)] c3LowerUrl emptyReq 0).matched
      = false ∧
    (matchAgainstMap [(c3LowerRule.source, c3LowerRule)] c3LowerUrl emptyReq 0).matched
      = true := by
  decide

/-- C3 (amended): matching is case-insensitive in the request only — the
request's path/URL/host are lowercased before lookup and pattern
matching, so a rule stored with an all-lowercase source matches a request
of any letter case, but rule sources are never normalized, so a rule
stored as `/OldPath` is not matched even by a request spelled
`/OldPath`. -/
theorem c3_request_side_case_insensitivity :
    (matchAgainstMap [(c3LowerRule.source, c3LowerRule)] c3MixedUrl emptyReq 0).matched
      = true ∧
    (matchAgainstMap [(c3UpperRule.source, c3UpperRule)] c3MixedUrl emptyReq 0).matched
      = false := by
  decide

/-- C6: `validateDestinationUrl` rejects every denylisted scheme
regardless of origin, whitelist and the external-redirect toggle; with no
whitelist and external redirects disabled it rejects a cross-origin
`https` destination; whitelisting `*.evil.com` (even with external
redirects disabled) or enabling external redirects accepts it. -/
theorem c6_validateDestination_policy :
    (∀ (origin : String) (ds : List String) (ext : Bool),
      (validateDestinationUrl "javascript:alert(1)" origin ds ext).valid = false ∧
      (validateDestinationUrl "data:text/html,x" origin ds ext).valid = false ∧
      (validateDestinationUrl "file:///etc/passwd" origin ds ext).valid = false ∧
      (validateDestinationUrl "vbscript:x" origin ds ext).valid = false ∧
      (validateDestinationUrl "about:blank" origin ds ext).valid = false ∧
      (validateDestinationUrl "blob:https://x" origin ds ext).valid = false ∧
      (validateDestinationUrl "ftp://evil.com/x" origin ds ext).valid = false) ∧
    (validateDestinationUrl "https://evil.com/x" "https://example.com" [] false).valid
      = false ∧
    (validateDestinationUrl "https://evil.com/x" "https://example.com"
        ["*.evil.com"] false).valid = true ∧
    (validateDestinationUrl "https://evil.com/x" "https://example.com" [] true).valid
      = true := by
  refine ⟨fun origin ds ext => ⟨rfl, rfl, rfl, rfl, rfl, rfl, rfl⟩, ?_, ?_, ?_⟩
  · decide
  · decide
  · decide

/-- C8: pattern `/docs/*` on request path `/docs/a/b/c` captures
`_splat0 = "a/b/c"` with alias `splat = "a/b/c"`, and processing the
match against destination `/documentation/*` redirects to a URL with
path `/documentation/a/b/c`. -/
theorem c8_docs_splat_end_to_end :
    matchPattern "/docs/a/b/c" "/docs/*" = some c8Params ∧
    assocFind c8Params "_splat0" = some "a/b/c" ∧
    assocFind c8Params "splat" = some "a/b/c" ∧
    matchAgainstMap [(c8Rule.source, c8Rule)] c8Url emptyReq 0
      = { matched := true, redirect := some c8Rule, params := some c8Params } ∧
    processRedirect
      { matched := true, redirect := some c8Rule, params := some c8Params }
      c8Url [] false
      = .redirect "https://example.com/documentation/a/b/c" 301 31536000 := by
  decide

/-- C10 counterexample: with `maxSize = 0` a single `set` leaves one
stored entry — the empty map has no first key to evict, so the insert
proceeds and the size exceeds the configured capacity. -/
theorem c10_counterexample :
    (LRUCache.empty Nat 0 60).maxSize = 0 ∧
    ((LRUCache.empty Nat 0 60).set "a" 7 0).getStats.size = 1 := by
  decide

/-- The pattern-phase loop is a first-match search over the table in
insertion order. -/
theorem patternLoop_eq_find (url : URLModel) (req : RequestModel) (now : Int)
    (path fullUrl hostAndPath : String) :
    ∀ l : List (String × Redirect),
      patternLoop url req now path fullUrl hostAndPath l =
        match l.find? (fun pr =>
            pr.2.enabled &&
            (patternParams pr.1 path fullUrl hostAndPath).isSome &&
            checkConditions pr.2 url req now) with
        | some (pattern, r) =>
          { matched := true, redirect := some r
            params := patternParams pattern path fullUrl hostAndPath }
        | none => { matched := false } := by
  intro l
  induction l with
  | nil => rfl
  | cons pr rest ih =>
    rcases pr with ⟨pattern, r⟩
    by_cases he : r.enabled
    · by_cases hp : (patternParams pattern path fullUrl hostAndPath).isSome
      · rcases hps : patternParams pattern path fullUrl hostAndPath with _ | ps
        · rw [hps] at hp; simp at hp
        · by_cases hc : checkConditions r url req now
          · simp [patternLoop, he, hps, hc, List.find?]
          · simp [patternLoop, he, hps, hc, List.find?, ih]
      · rcases hps : patternParams pattern path fullUrl hostAndPath with _ | ps
        · simp [patternLoop, he, hps, List.find?, ih]
        · rw [hps] at hp; simp at hp
    · simp [patternLoop, he, List.find?, ih]

/-- C4: the implemented matching strategy coincides, on every rule table,
request URL, request and time, with the specified one — exact-key lookups
for the lowercased path, full URL and host+path in that order, returning
the first present hit whose conditions pass without pattern iteration,
and otherwise the first enabled rule in insertion order that
pattern-matches and passes its conditions. -/
theorem c4_match_precedence (m : List (String × Redirect)) (url : URLModel)
    (req : RequestModel) (now : Int) :
    matchAgainstMap m url req now = matchRedirectSpec m url req now := by
  unfold matchAgainstMap matchRedirectSpec
  simp only [List.findSome?_cons]
  rcases h1 : assocFind m (lowerStr url.path) with _ | r1
  · rcases h2 : assocFind m (lowerStr url.toStr) with _ | r2
    · rcases h3 : assocFind m (lowerStr (url.host ++ lowerStr url.path)) with _ | r3
      · simp only [tryExact, h1, h2, h3, List.findSome?_cons, List.findSome?_nil]
        exact patternLoop_eq_find url req now _ _ _ m
      · by_cases hc3 : checkConditions r3 url req now
        · simp [tryExact, h1, h2, h3, hc3, List.findSome?_cons]
        · simp only [tryExact, h1, h2, h3, hc3, if_false, List.findSome?_cons,
            List.findSome?_nil]
          simp only [Bool.false_eq_true, if_false]
          exact patternLoop_eq_find url req now _ _ _ m
    · by_cases hc2 : checkConditions r2 url req now
      · simp [tryExact, h1, h2, hc2]
      · rcases h3 : assocFind m (lowerStr (url.host ++ lowerStr url.path)) with _ | r3
        · simp only [tryExact, h1, h2, h3, hc2, List.findSome?_cons,
            List.findSome?_nil, Bool.false_eq_true, if_false]
          exact patternLoop_eq_find url req now _ _ _ m
        · by_cases hc3 : checkConditions r3 url req now
          · simp [tryExact, h1, h2, h3, hc2, hc3]
          · simp only [tryExact, h1, h2, h3, hc2, hc3, List.findSome?_cons,
              List.findSome?_nil, Bool.false_eq_true, if_false]
            exact patternLoop_eq_find url req now _ _ _ m
  · by_cases hc1 : checkConditions r1 url req now
    · simp [tryExact, h1, hc1]
    · rcases h2 : assocFind m (lowerStr url.toStr) with _ | r2
      · rcases h3 : assocFind m (lowerStr (url.host ++ lowerStr url.path)) with _ | r3
        · simp only [tryExact, h1, h2, h3, hc1, List.findSome?_cons,
            List.findSome?_nil, Bool.false_eq_true, if_false]
          exact patternLoop_eq_find url req now _ _ _ m
        · by_cases hc3 : checkConditions r3 url req now
          · simp [tryExact, h1, h2, h3, hc1, hc3]
          · simp only [tryExact, h1, h2, h3, hc1, hc3, List.findSome?_cons,
              List.findSome?_nil, Bool.false_eq_true, if_false]
            exact patternLoop_eq_find url req now _ _ _ m
      · by_cases hc2 : checkConditions r2 url req now
        · simp [tryExact, h1, h2, hc1, hc2]
        · rcases h3 : assocFind m (lowerStr (url.host ++ lowerStr url.path)) with _ | r3
          · simp only [tryExact, h1, h2, h3, hc1, hc2, List.findSome?_cons,
              List.findSome?_nil, Bool.false_eq_true, if_false]
            exact patternLoop_eq_find url req now _ _ _ m
          · by_cases hc3 : checkConditions r3 url req now
            · simp [tryExact, h1, h2, h3, hc1, hc2, hc3]
            · simp only [tryExact, h1, h2, h3, hc1, hc2, hc3, List.findSome?_cons,
                List.findSome?_nil, Bool.false_eq_true, if_false]
              exact patternLoop_eq_find url req now _ _ _ m

/-- C5: `saveBulkRedirects` is all-or-nothing — if any rule's source
fails `validateRedirectPattern` the call returns the validation error and
the durable store is unchanged; otherwise it succeeds and every rule of
the batch is in the stored table (represented by the last batch rule with
its source). -/
theorem c5_bulk_atomicity :
    (∀ (st : RSState) (rs : List Redirect) (now : Int),
      (∃ r ∈ rs, (validateRedirectPattern r.source).valid = false) →
        exceptIsOk (saveBulkRedirects st rs now).1 = false ∧
        (saveBulkRedirects st rs now).2.store = st.store) ∧
    (∀ (st : RSState) (rs : List Redirect) (now : Int),
      (∀ r ∈ rs, (validateRedirectPattern r.source).valid = true) →
        (saveBulkRedirects st rs now).1 = .ok () ∧
        ∀ r ∈ rs, ∃ r' ∈ rs, r'.source = r.source ∧
          assocFind ((saveBulkRedirects st rs now).2.store.getD []) r.source
            = some r') := by
  constructor
  · intro st rs now ⟨r, hr, hv⟩
    rcases hg : getRedirectMap st now with ⟨m, st1⟩
    have hmem : r ∈ rs.filter (fun r => !(validateRedirectPattern r.source).valid) :=
      List.mem_filter.mpr ⟨hr, by simp [hv]⟩
    have hcond : ((rs.filter (fun r => !(validateRedirectPattern r.source).valid)).map
        (fun r => (r.source, (validateRedirectPattern r.source).reason.getD
          "Invalid pattern"))).isEmpty = false := by
      cases hfe : rs.filter (fun r => !(validateRedirectPattern r.source).valid) with
      | nil => rw [hfe] at hmem; cases hmem
      | cons a l => simp [hfe]
    have hst1 : st1.store = st.store := by
      have := getRedirectMap_store st now
      rw [hg] at this
      exact this
    simp only [saveBulkRedirects, hg, hcond, Bool.not_false, if_true]
    exact ⟨rfl, hst1⟩
  · intro st rs now hall
    rcases hg : getRedirectMap st now with ⟨m, st1⟩
    have hfe : rs.filter (fun r => !(validateRedirectPattern r.source).valid) = [] := by
      rw [List.filter_eq_nil_iff]
      intro r hr
      simp [hall r hr]
    simp only [saveBulkRedirects, hg, hfe, List.map_nil, List.isEmpty_nil,
      Bool.not_true, Bool.false_eq_true, if_false, clearPatternCacheRS]
    refine ⟨by simp, fun r hr => ?_⟩
    have h := foldl_objSet_mem rs (m.getD []) r hr
    simpa using h

/-- C9: every successful mutation — `saveRedirect`, `saveBulkRedirects`,
or a `deleteRedirect` that removed an existing rule — leaves the compiled
pattern cache empty (`getCacheStats().patternCacheSize = 0`) and the
cached decoded rule-table entry invalidated. -/
theorem c9_mutations_invalidate_caches :
    (∀ (st : RSState) (r : Redirect) (now : Int) (st' : RSState),
      saveRedirect st r now = (.ok (), st') →
        st'.patternCache = [] ∧
        (getCacheStatsRS st').patternCacheSize = 0 ∧
        mapGet st'.cache.entries REDIRECT_MAP_CACHE_KEY = none) ∧
    (∀ (st : RSState) (rs : List Redirect) (now : Int) (st' : RSState),
      saveBulkRedirects st rs now = (.ok (), st') →
        st'.patternCache = [] ∧
        (getCacheStatsRS st').patternCacheSize = 0 ∧
        mapGet st'.cache.entries REDIRECT_MAP_CACHE_KEY = none) ∧
    (∀ (st : RSState) (source : String) (now : Int) (st' : RSState),
      deleteRedirect st source now = (true, st') →
        st'.patternCache = [] ∧
        (getCacheStatsRS st').patternCacheSize = 0 ∧
        mapGet st'.cache.entries REDIRECT_MAP_CACHE_KEY = none) := by
  refine ⟨?_, ?_, ?_⟩
  · intro st r now st' hEq
    by_cases hv : (validateRedirectPattern r.source).valid
    · rcases hg : getRedirectMap st now with ⟨m, st1⟩
      simp only [saveRedirect, hv, Bool.not_true, Bool.false_eq_true, if_false,
        hg, Prod.mk.injEq] at hEq
      rw [← hEq.2]
      exact ⟨rfl, rfl, by
        simp [clearPatternCacheRS, LRUCache.delete, mapGet,
          assocFind_mapDelete_self]⟩
    · simp only [saveRedirect, hv, Bool.not_false, if_true, Prod.mk.injEq] at hEq
      cases hEq.1
  · intro st rs now st' hEq
    rcases hg : getRedirectMap st now with ⟨m, st1⟩
    rcases hfe : rs.filter (fun r => !(validateRedirectPattern r.source).valid) with
      _ | ⟨a, l⟩
    · simp only [saveBulkRedirects, hg, hfe, List.map_nil, List.isEmpty_nil,
        Bool.not_true, Bool.false_eq_true, if_false, Prod.mk.injEq] at hEq
      rw [← hEq.2]
      exact ⟨rfl, rfl, by
        simp [clearPatternCacheRS, LRUCache.delete, mapGet,
          assocFind_mapDelete_self]⟩
    · simp only [saveBulkRedirects, hg, hfe, Prod.mk.injEq] at hEq
      simp at hEq
  · intro st source now st' hEq
    rcases hg : getRedirectMap st now with ⟨m?, st1⟩
    cases m? with
    | none =>
      simp only [deleteRedirect, hg, Prod.mk.injEq] at hEq
      cases hEq.1
    | some m =>
      by_cases hfound : (assocFind m source).isNone
      · simp only [deleteRedirect, hg, hfound, if_true, Prod.mk.injEq] at hEq
        cases hEq.1
      · simp only [deleteRedirect, hg, hfound, Bool.false_eq_true, if_false,
          Prod.mk.injEq] at hEq
        rw [← hEq.2]
        exact ⟨rfl, rfl, by
          simp [clearPatternCacheRS, LRUCache.delete, mapGet,
            assocFind_mapDelete_self]⟩

/-- Witness for C9: a concrete successful save, bulk save and delete each
leave an empty pattern cache and no cached rule table. -/
theorem c9_mutations_invalidate_caches_witness :
    (saveRedirect (RSState.init none) c2BadRule 0
        = (.ok (), (saveRedirect (RSState.init none) c2BadRule 0).2) ∧
      ((saveRedirect (RSState.init none) c2BadRule 0).2.patternCache = [] ∧
        (getCacheStatsRS (saveRedirect (RSState.init none) c2BadRule 0).2).patternCacheSize = 0 ∧
        mapGet (saveRedirect (RSState.init none) c2BadRule 0).2.cache.entries
          REDIRECT_MAP_CACHE_KEY = none)) ∧
    (saveBulkRedirects (RSState.init none) [c8Rule] 0
        = (.ok (), (saveBulkRedirects (RSState.init none) [c8Rule] 0).2) ∧
      ((saveBulkRedirects (RSState.init none) [c8Rule] 0).2.patternCache = [] ∧
        (getCacheStatsRS (saveBulkRedirects (RSState.init none) [c8Rule] 0).2).patternCacheSize = 0 ∧
        mapGet (saveBulkRedirects (RSState.init none) [c8Rule] 0).2.cache.entries
          REDIRECT_MAP_CACHE_KEY = none)) ∧
    (deleteRedirect (RSState.init (some [("/ok", c2BadRule)])) "/ok" 0
        = (true, (deleteRedirect (RSState.init (some [("/ok", c2BadRule)])) "/ok" 0).2) ∧
      ((deleteRedirect (RSState.init (some [("/ok", c2BadRule)])) "/ok" 0).2.patternCache = [] ∧
        (getCacheStatsRS (deleteRedirect (RSState.init (some [("/ok", c2BadRule)])) "/ok" 0).2).patternCacheSize = 0 ∧
        mapGet (deleteRedirect (RSState.init (some [("/ok", c2BadRule)])) "/ok" 0).2.cache.entries
          REDIRECT_MAP_CACHE_KEY = none)) :=
  ⟨⟨rfl,
    c9_mutations_invalidate_caches.1 (RSState.init none) c2BadRule 0 _ rfl⟩,
   ⟨rfl,
    c9_mutations_invalidate_caches.2.1 (RSState.init none) [c8Rule] 0 _ rfl⟩,
   ⟨rfl,
    c9_mutations_invalidate_caches.2.2 (RSState.init (some [("/ok", c2BadRule)]))
      "/ok" 0 _ rfl⟩⟩

/-- Witness for C5: a batch containing the bad source `/(a` is rejected
with the store untouched; a fully valid two-rule batch succeeds and both
rules are found in the store. -/
theorem c5_bulk_atomicity_witness :
    (exceptIsOk (saveBulkRedirects (RSState.init none)
        [c8Rule, { source := "/(a", destination := "/d" }] 0).1 = false ∧
      (saveBulkRedirects (RSState.init none)
        [c8Rule, { source := "/(a", destination := "/d" }] 0).2.store
        = (RSState.init none).store) ∧
    ((saveBulkRedirects (RSState.init none) [c8Rule, c2BadRule] 0).1 = .ok () ∧
      ∀ r ∈ [c8Rule, c2BadRule], ∃ r' ∈ [c8Rule, c2BadRule],
        r'.source = r.source ∧
        assocFind ((saveBulkRedirects (RSState.init none)
            [c8Rule, c2BadRule] 0).2.store.getD []) r.source = some r') :=
  ⟨c5_bulk_atomicity.1 (RSState.init none)
      [c8Rule, { source := "/(a", destination := "/d" }] 0
      ⟨{ source := "/(a", destination := "/d" }, by decide, by decide⟩,
   c5_bulk_atomicity.2 (RSState.init none) [c8Rule, c2BadRule] 0
      (by intro r hr; fin_cases hr <;> decide)⟩

/-- No cache operation changes the configured capacity. -/
theorem applyCacheOp_maxSize {α : Type} (c : LRUCache α) (op : CacheOp α) :
    (applyCacheOp c op).maxSize = c.maxSize := by
  cases op <;>
    simp only [applyCacheOp, LRUCache.set, LRUCache.get, LRUCache.has,
      LRUCache.delete, LRUCache.clear, LRUCache.prune, mapGet] <;>
    (repeat' split) <;> rfl

/-- `set` preserves the size bound for positive capacities. -/
theorem set_size_le {α : Type} (c : LRUCache α) (key : String) (value : α)
    (now : Int) (hcap : 1 ≤ c.maxSize) (hle : c.entries.length ≤ c.maxSize) :
    (c.set key value now).entries.length ≤ c.maxSize := by
  unfold LRUCache.set
  by_cases hpresent : (mapGet c.entries key).isSome
  · have hlt : (mapDelete c.entries key).length < c.entries.length :=
      mapDelete_length_lt c.entries key hpresent
    have hnotfull : ¬ (mapDelete c.entries key).length ≥ c.maxSize := by omega
    simp only [hpresent, if_true, hnotfull, if_false, List.length_append,
      List.length_cons, List.length_nil]
    omega
  · simp only [hpresent, Bool.false_eq_true, if_false]
    by_cases hfull : c.entries.length ≥ c.maxSize
    · have hne : c.entries ≠ [] := by
        intro hnil
        have hzero : c.entries.length = 0 := by rw [hnil]; rfl
        omega
      have hlt : (match c.entries.head? with
          | some first => mapDelete c.entries first.1
          | none => c.entries).length < c.entries.length := by
        rcases he : c.entries with _ | ⟨first, rest⟩
        · exact absurd he hne
        · have hfind : (assocFind (first :: rest) first.1).isSome = true := by
            simp [assocFind]
          simp only [List.head?_cons]
          exact mapDelete_length_lt (first :: rest) first.1 hfind
      rw [if_pos hfull]
      simp only [List.length_append, List.length_cons, List.length_nil]
      omega
    · rw [if_neg hfull]
      simp only [List.length_append, List.length_cons, List.length_nil]
      omega

/-- Every cache operation preserves the size bound for positive
capacities. -/
theorem applyCacheOp_size_le {α : Type} (c : LRUCache α) (op : CacheOp α)
    (hcap : 1 ≤ c.maxSize) (hle : c.entries.length ≤ c.maxSize) :
    (applyCacheOp c op).entries.length ≤ c.maxSize := by
  cases op with
  | setOp k v now => exact set_size_le c k v now hcap hle
  | getOp k now =>
    simp only [applyCacheOp, LRUCache.get]
    rcases hfind : mapGet c.entries k with _ | entry
    · exact hle
    · by_cases hexp : now > entry.expiresAt
      · simp only [hexp, if_true]
        exact le_trans (mapDelete_length_le c.entries k) hle
      · have hlt : (mapDelete c.entries k).length < c.entries.length :=
          mapDelete_length_lt c.entries k
            (by unfold mapGet at hfind; rw [hfind]; rfl)
        simp only [hexp, if_false, List.length_append, List.length_cons,
          List.length_nil]
        omega
  | hasOp k now =>
    simp only [applyCacheOp, LRUCache.has]
    rcases hfind : mapGet c.entries k with _ | entry
    · exact hle
    · by_cases hexp : now > entry.expiresAt
      · simp only [hexp, if_true]
        exact le_trans (mapDelete_length_le c.entries k) hle
      · simp only [hexp, if_false]
        exact hle
  | delOp k =>
    exact le_trans (mapDelete_length_le c.entries k) hle
  | clearOp => simp [applyCacheOp, LRUCache.clear]
  | pruneOp now =>
    simp only [applyCacheOp, LRUCache.prune]
    exact le_trans (List.length_filter_le _ _) hle

/-- C10 (amended): for every capacity `N ≥ 1`, after any sequence of
cache operations on a cache constructed with `maxSize = N` the number of
stored entries reported by `getStats` is at most `N`.  (With `N = 0` the
bound fails: `set` on the empty cache finds no first key to evict and
still inserts, see the counterexample.) -/
theorem c10_size_bound {α : Type} (N : Nat) (ttlSeconds : Int)
    (ops : List (CacheOp α)) (hcap : 1 ≤ N) :
    (runCacheOps (LRUCache.empty α N ttlSeconds) ops).getStats.size ≤ N := by
  suffices h : ∀ (c : LRUCache α), c.maxSize = N → c.entries.length ≤ N →
      (runCacheOps c ops).entries.length ≤ N by
    exact h (LRUCache.empty α N ttlSeconds) rfl (by simp [LRUCache.empty])
  induction ops with
  | nil => intro c hmax hlen; exact hlen
  | cons op rest ih =>
    intro c hmax hlen
    have hstep : (applyCacheOp c op).entries.length ≤ N := by
      have := applyCacheOp_size_le c op (hmax ▸ hcap) (hmax ▸ hlen)
      omega
    have hmax' : (applyCacheOp c op).maxSize = N := by
      rw [applyCacheOp_maxSize]; exact hmax
    exact ih (applyCacheOp c op) hmax' hstep

/-- Witness for the amended C10: a capacity-1 cache holds at most one
entry after two inserts. -/
theorem c10_size_bound_witness :
    1 ≤ 1 ∧
    (runCacheOps (LRUCache.empty Nat 1 60)
        [.setOp "a" 1 0, .setOp "b" 2 0]).getStats.size ≤ 1 :=
  ⟨by decide, c10_size_bound 1 60 [.setOp "a" 1 0, .setOp "b" 2 0] (by decide)⟩

/-- C7: with capacity 3, after inserting three distinct keys, a `get` on
the first-inserted key returns its value and refreshes its recency;
inserting a fourth distinct key then evicts exactly the
least-recently-used entry — the second key, which holds the oldest
recency position (the front of the recency order) — while the
first-inserted key survives. -/
theorem c7_lru_eviction (k1 k2 k3 k4 : String) (v1 v2 v3 v4 : Nat) (t : Int)
    (ht : 0 ≤ t) (h12 : k1 ≠ k2) (h13 : k1 ≠ k3) (h14 : k1 ≠ k4)
    (h23 : k2 ≠ k3) (h24 : k2 ≠ k4) (h34 : k3 ≠ k4) :
    (((((LRUCache.empty Nat 3 t).set k1 v1 0).set k2 v2 0).set k3 v3 0).get k1 0).1 = some v1 ∧
    ((((((LRUCache.empty Nat 3 t).set k1 v1 0).set k2 v2 0).set k3 v3 0).get k1 0).2.entries.head?).map Prod.fst = some k2 ∧
    (((((((LRUCache.empty Nat 3 t).set k1 v1 0).set k2 v2 0).set k3 v3 0).get k1 0).2.set k4 v4 0).has k1 0).1 = true ∧
    (((((((LRUCache.empty Nat 3 t).set k1 v1 0).set k2 v2 0).set k3 v3 0).get k1 0).2.set k4 v4 0).has k2 0).1 = false ∧
    (((((((LRUCache.empty Nat 3 t).set k1 v1 0).set k2 v2 0).set k3 v3 0).get k1 0).2.set k4 v4 0).has k3 0).1 = true ∧
    (((((((LRUCache.empty Nat 3 t).set k1 v1 0).set k2 v2 0).set k3 v3 0).get k1 0).2.set k4 v4 0).has k4 0).1 = true ∧
    ((((((LRUCache.empty Nat 3 t).set k1 v1 0).set k2 v2 0).set k3 v3 0).get k1 0).2.set k4 v4 0).getStats.size = 3 := by
  have h0 : (0 : Int) ≤ t * 1000 := by positivity
  have hexp : ¬ ((0 : Int) > 0 + t * 1000) := by omega
  have hnn : ¬ (t * 1000 < (0 : Int)) := by omega
  have E1 : (LRUCache.empty Nat 3 t).set k1 v1 0
      = ⟨[(k1, ⟨v1, 0 + t * 1000⟩)], 3, t * 1000, 0, 0⟩ := by
    simp [LRUCache.set, LRUCache.empty, mapGet, assocFind, mapDelete]
  have E2 : ((LRUCache.empty Nat 3 t).set k1 v1 0).set k2 v2 0
      = ⟨[(k1, ⟨v1, 0 + t * 1000⟩), (k2, ⟨v2, 0 + t * 1000⟩)],
         3, t * 1000, 0, 0⟩ := by
    rw [E1]
    simp [LRUCache.set, mapGet, assocFind, h12]
  have E3 : (((LRUCache.empty Nat 3 t).set k1 v1 0).set k2 v2 0).set k3 v3 0
      = ⟨[(k1, ⟨v1, 0 + t * 1000⟩), (k2, ⟨v2, 0 + t * 1000⟩),
          (k3, ⟨v3, 0 + t * 1000⟩)], 3, t * 1000, 0, 0⟩ := by
    rw [E2]
    simp [LRUCache.set, mapGet, assocFind, h13, h23]
  have E4 : ((((LRUCache.empty Nat 3 t).set k1 v1 0).set k2 v2 0).set k3 v3 0).get k1 0
      = (some v1,
         ⟨[(k2, ⟨v2, 0 + t * 1000⟩), (k3, ⟨v3, 0 + t * 1000⟩),
           (k1, ⟨v1, 0 + t * 1000⟩)], 3, t * 1000, 1, 0⟩) := by
    rw [E3]
    simp [LRUCache.get, mapGet, assocFind, hexp, ht, mapDelete,
      Ne.symm h12, Ne.symm h13]
  have E5 : (((((LRUCache.empty Nat 3 t).set k1 v1 0).set k2 v2 0).set k3 v3 0).get k1 0).2.set k4 v4 0
      = ⟨[(k3, ⟨v3, 0 + t * 1000⟩), (k1, ⟨v1, 0 + t * 1000⟩),
          (k4, ⟨v4, 0 + t * 1000⟩)], 3, t * 1000, 1, 0⟩ := by
    rw [E4]
    simp [LRUCache.set, mapGet, assocFind, mapDelete,
      h14, h24, h34, Ne.symm h23, h12]
  refine ⟨?_, ?_, ?_, ?_, ?_, ?_, ?_⟩
  · show (((((LRUCache.empty Nat 3 t).set k1 v1 0).set k2 v2 0).set k3 v3 0).get k1 0).1 = some v1
    rw [E4]
  · show (((((LRUCache.empty Nat 3 t).set k1 v1 0).set k2 v2 0).set k3 v3 0).get k1 0).2.entries.head?.map Prod.fst = some k2
    rw [E4]
    rfl
  · show (((((((LRUCache.empty Nat 3 t).set k1 v1 0).set k2 v2 0).set k3 v3 0).get k1 0).2.set k4 v4 0).has k1 0).1 = true
    rw [E5]
    simp [LRUCache.has, mapGet, assocFind, Ne.symm h13, hnn]
  · show (((((((LRUCache.empty Nat 3 t).set k1 v1 0).set k2 v2 0).set k3 v3 0).get k1 0).2.set k4 v4 0).has k2 0).1 = false
    rw [E5]
    simp [LRUCache.has, mapGet, assocFind, Ne.symm h23, h12, Ne.symm h24]
  · show (((((((LRUCache.empty Nat 3 t).set k1 v1 0).set k2 v2 0).set k3 v3 0).get k1 0).2.set k4 v4 0).has k3 0).1 = true
    rw [E5]
    simp [LRUCache.has, mapGet, assocFind, hnn]
  · show (((((((LRUCache.empty Nat 3 t).set k1 v1 0).set k2 v2 0).set k3 v3 0).get k1 0).2.set k4 v4 0).has k4 0).1 = true
    rw [E5]
    simp [LRUCache.has, mapGet, assocFind, h14, h34, hnn]
  · show ((((((LRUCache.empty Nat 3 t).set k1 v1 0).set k2 v2 0).set k3 v3 0).get k1 0).2.set k4 v4 0).getStats.size = 3
    rw [E5]
    rfl

/-- Witness for C7: the scenario at keys `a b c d`, values `1 2 3 4` and
a 60-second TTL. -/
theorem c7_lru_eviction_witness :
    (((((LRUCache.empty Nat 3 60).set "a" 1 0).set "b" 2 0).set "c" 3 0).get "a" 0).1 = some 1 ∧
    ((((((LRUCache.empty Nat 3 60).set "a" 1 0).set "b" 2 0).set "c" 3 0).get "a" 0).2.entries.head?).map Prod.fst = some "b" ∧
    (((((((LRUCache.empty Nat 3 60).set "a" 1 0).set "b" 2 0).set "c" 3 0).get "a" 0).2.set "d" 4 0).has "a" 0).1 = true ∧
    (((((((LRUCache.empty Nat 3 60).set "a" 1 0).set "b" 2 0).set "c" 3 0).get "a" 0).2.set "d" 4 0).has "b" 0).1 = false ∧
    (((((((LRUCache.empty Nat 3 60).set "a" 1 0).set "b" 2 0).set "c" 3 0).get "a" 0).2.set "d" 4 0).has "c" 0).1 = true ∧
    (((((((LRUCache.empty Nat 3 60).set "a" 1 0).set "b" 2 0).set "c" 3 0).get "a" 0).2.set "d" 4 0).has "d" 0).1 = true ∧
    ((((((LRUCache.empty Nat 3 60).set "a" 1 0).set "b" 2 0).set "c" 3 0).get "a" 0).2.set "d" 4 0).getStats.size = 3 :=
  c7_lru_eviction "a" "b" "c" "d" 1 2 3 4 60 (by decide) (by decide) (by decide)
    (by decide) (by decide) (by decide) (by decide)

end Redirector
